import Mathlib

/-!
Verification of the DevDigger database client (`use_devdigger_db.py`).

The client opens a pre-existing SQLite database with tables `sources`,
`documents`, `code_examples` and `collections`, and exposes read-only query
methods. We embed the four row types, a database state, and each query method
as a pure Lean function whose behaviour follows the SQL and Python of the
source file, and prove the specified properties about them.
-/

namespace DevDigger

/-- A row of the `sources` table (the columns this client reads). -/
structure Source where
  id : String
  type : String
  url : String
  title : String
  crawl_status : String
  created_at : Nat
  deriving Repr, DecidableEq

/-- A row of the `documents` table. The optional embedding is a raw byte
blob (each byte a value below 256) of packed little-endian 32-bit floats. -/
structure Document where
  id : String
  source_id : String
  content : String
  chunk_index : Nat
  embedding : Option (List Nat)
  deriving Repr, DecidableEq

/-- A row of the `code_examples` table (the columns this client reads). -/
structure CodeExample where
  id : String
  source_id : String
  language : String
  description : String
  code : String
  deriving Repr, DecidableEq

/-- A row of the `collections` table; the client only ever counts them. -/
structure Collection where
  id : String
  deriving Repr, DecidableEq

/-- The state of the DevDigger database: the contents of its four tables. -/
structure DB where
  sources : List Source
  documents : List Document
  code_examples : List CodeExample
  collections : List Collection
  deriving Repr, DecidableEq

/-! SQLite LIKE matching

`search` filters with `d.content LIKE '%' || query || '%'`. SQLite's `LIKE`
is case-insensitive for ASCII letters, `%` matches any character sequence and
`_` matches any single character; the pattern must cover the whole string. -/

/-- ASCII case folding as SQLite's `LIKE` applies it: uppercase ASCII letters
fold to lowercase, every other character is unchanged. -/
def foldAscii (c : Char) : Char :=
  if 'A' ≤ c ∧ c ≤ 'Z' then Char.ofNat (c.toNat + 32) else c

/-- Single-character comparison under `LIKE`: ASCII case-insensitive. -/
def likeEqChar (p c : Char) : Bool :=
  foldAscii p == foldAscii c

/-- SQLite `LIKE` pattern matching over character lists (no ESCAPE clause). -/
def likeMatch : List Char → List Char → Bool
  | [], s => s.isEmpty
  | p :: ps, s =>
    if p = '%' then s.tails.any (fun t => likeMatch ps t)
    else
      match s with
      | [] => false
      | c :: s' => (if p = '_' then true else likeEqChar p c) && likeMatch ps s'

/-- The filter used by `search`: `content LIKE '%{query}%'`. -/
def likeFilter (query content : String) : Bool :=
  likeMatch ('%' :: (query.data ++ ['%'])) content.data

/-- Test that `xs` is a prefix of `ys` (Boolean, character-exact). -/
def prefixEq : List Char → List Char → Bool
  | [], _ => true
  | _ :: _, [] => false
  | a :: xs, b :: ys => (a == b) && prefixEq xs ys

/-- Spec-side predicate ("contains ... as a substring"): `needle` occurs
contiguously inside `hay`. -/
def containsSub (hay needle : List Char) : Bool :=
  hay.tails.any (fun t => prefixEq needle t)

/-! The query methods -/

/-- The join `FROM documents d JOIN sources s ON d.source_id = s.id`, in nested-loop
order. -/
def joinDS (db : DB) : List (Document × Source) :=
  db.documents.flatMap (fun d =>
    (db.sources.filter (fun s => s.id == d.source_id)).map (fun s => (d, s)))

/-- A row returned by `search`: `d.id, d.content, d.source_id, s.url, s.title`. -/
structure SearchRow where
  id : String
  content : String
  source_id : String
  url : String
  title : String
  deriving Repr, DecidableEq

/-- The rows selected by `search` before the `LIMIT` clause. -/
def searchRows (db : DB) (query : String) : List SearchRow :=
  ((joinDS db).filter (fun p => likeFilter query p.1.content)).map
    (fun p => ⟨p.1.id, p.1.content, p.1.source_id, p.2.url, p.2.title⟩)

/-- Model of `search(query, limit)`: LIKE filter over the document/source join, then a
`LIMIT` clause. In SQLite a negative limit means "no limit". -/
def search (db : DB) (query : String) (limit : Int) : List SearchRow :=
  if limit < 0 then searchRows db query else (searchRows db query).take limit.toNat

/-- The query `SELECT COUNT(*) FROM t` for a dynamically interpolated table name;
`none` models the sqlite error for a table that does not exist. -/
def tableCount (db : DB) (t : String) : Option Nat :=
  if t = "sources" then some db.sources.length
  else if t = "documents" then some db.documents.length
  else if t = "code_examples" then some db.code_examples.length
  else if t = "collections" then some db.collections.length
  else none

/-- The table list `get_stats` iterates over. -/
def statsTables : List String := ["sources", "documents", "code_examples", "collections"]

/-- Model of `get_stats()`: one `COUNT(*)` query per table, collected into a
name-to-count mapping. -/
def get_stats (db : DB) : Option (List (String × Nat)) :=
  statsTables.mapM (fun t => (tableCount db t).map (fun n => (t, n)))

/-- The clause `ORDER BY created_at DESC` as a relation on source rows. -/
def createdDesc (a b : Source) : Prop := b.created_at ≤ a.created_at

instance : DecidableRel createdDesc := fun _ _ => Nat.decLe _ _

instance : IsTotal Source createdDesc := ⟨fun _ _ => Nat.le_total _ _⟩

instance : IsTrans Source createdDesc := ⟨fun _ _ _ hab hbc => Nat.le_trans hbc hab⟩

/-- Model of `list_sources()`: `SELECT ... FROM sources ORDER BY created_at DESC`. -/
def list_sources (db : DB) : List Source :=
  db.sources.insertionSort createdDesc

/-- The clause `ORDER BY chunk_index` as a relation on document rows. -/
def chunkLe (a b : Document) : Prop := a.chunk_index ≤ b.chunk_index

instance : DecidableRel chunkLe := fun _ _ => Nat.decLe _ _

instance : IsTotal Document chunkLe := ⟨fun _ _ => Nat.le_total _ _⟩

instance : IsTrans Document chunkLe := ⟨fun _ _ _ => Nat.le_trans⟩

/-- Model of `get_documents(source_id)`: the Python truthiness test `if source_id:`
selects the filtered, ordered query only for a present, non-empty id; a falsy
id (absent or empty) falls through to `SELECT * FROM documents`. -/
def get_documents (db : DB) (source_id : Option String) : List Document :=
  match source_id with
  | some sid =>
    if sid = "" then db.documents
    else (db.documents.filter (fun d => d.source_id == sid)).insertionSort chunkLe
  | none => db.documents

/-- A row returned by `get_code_examples`: `c.*, s.url as source_url`. -/
structure CodeRow where
  id : String
  source_id : String
  language : String
  description : String
  code : String
  source_url : String
  deriving Repr, DecidableEq

/-- Shape of one joined code-example row. -/
def codeRowOf (c : CodeExample) (s : Source) : CodeRow :=
  ⟨c.id, c.source_id, c.language, c.description, c.code, s.url⟩

/-- The join `FROM code_examples c JOIN sources s ON c.source_id = s.id`. -/
def joinCS (db : DB) : List (CodeExample × Source) :=
  db.code_examples.flatMap (fun c =>
    (db.sources.filter (fun s => s.id == c.source_id)).map (fun s => (c, s)))

/-- Model of `get_code_examples(language)`: join with sources, with the optional
language filter under Python truthiness. -/
def get_code_examples (db : DB) (language : Option String) : List CodeRow :=
  match language with
  | some lang =>
    if lang = "" then (joinCS db).map (fun p => codeRowOf p.1 p.2)
    else ((joinCS db).filter (fun p => p.1.language == lang)).map (fun p => codeRowOf p.1 p.2)
  | none => (joinCS db).map (fun p => codeRowOf p.1 p.2)

/-- The embedding field of a row returned by `get_embeddings`: kept as the raw
(falsy) value, or decoded into 32-bit words by `np.frombuffer`. -/
inductive EmbValue
  | rawNull
  | raw (bytes : List Nat)
  | vec (words : List Nat)
  deriving Repr, DecidableEq

/-- A row returned by `get_embeddings`. -/
structure EmbRow where
  id : String
  content : String
  embedding : EmbValue
  url : String
  title : String
  deriving Repr, DecidableEq

/-- Model of `np.frombuffer(blob, dtype=np.float32)`: reinterpret the byte blob as
little-endian 32-bit words (the bit patterns of the floats); raises — here
`none` — when the byte length is not a multiple of four. -/
def decodeF32 : List Nat → Option (List Nat)
  | [] => some []
  | b0 :: b1 :: b2 :: b3 :: rest =>
    (decodeF32 rest).map (fun ws => (b0 + 256 * (b1 + 256 * (b2 + 256 * b3))) :: ws)
  | _ => none

/-- Body of the `get_embeddings` loop: `if doc['embedding']:` keeps a falsy
blob (absent or empty) as it is and decodes a non-empty one. -/
def decodeEmb (d : Document) (s : Source) : Option EmbRow :=
  match d.embedding with
  | none => some ⟨d.id, d.content, .rawNull, s.url, s.title⟩
  | some [] => some ⟨d.id, d.content, .raw [], s.url, s.title⟩
  | some bs => (decodeF32 bs).map (fun ws => ⟨d.id, d.content, .vec ws, s.url, s.title⟩)

/-- The `get_embeddings` result loop; a decoding error fails the whole call. -/
def decodeRows : List (Document × Source) → Option (List EmbRow)
  | [] => some []
  | p :: rest =>
    match decodeEmb p.1 p.2 with
    | none => none
    | some r => (decodeRows rest).map (fun rs => r :: rs)

/-- Model of `get_embeddings()`: `WHERE d.embedding IS NOT NULL` over the join, then
the Python decoding loop. -/
def get_embeddings (db : DB) : Option (List EmbRow) :=
  decodeRows ((joinDS db).filter (fun p => p.1.embedding.isSome))

/-- Length of the embedding field of a returned row. -/
def embLen : EmbValue → Nat
  | .rawNull => 0
  | .raw bs => bs.length
  | .vec ws => ws.length

/-! JSON export -/

/-- A parsed JSON value. -/
inductive JVal
  | jnull
  | jstr (s : String)
  | jnum (n : Int)
  | jarr (xs : List JVal)
  | jobj (fields : List (String × JVal))

/-- One exported source row. -/
def sourceToJson (s : Source) : JVal :=
  .jobj [("id", .jstr s.id), ("type", .jstr s.type), ("url", .jstr s.url),
         ("title", .jstr s.title), ("crawl_status", .jstr s.crawl_status),
         ("created_at", .jnum (s.created_at : Int))]

/-- Model of `json.dump(..., default=str)`: a byte blob is not JSON serializable and
is stringified; an absent value becomes `null`. -/
def embToJson : Option (List Nat) → JVal
  | none => .jnull
  | some bs => .jstr (toString bs)

/-- One exported document row. -/
def documentToJson (d : Document) : JVal :=
  .jobj [("id", .jstr d.id), ("source_id", .jstr d.source_id),
         ("content", .jstr d.content), ("chunk_index", .jnum (d.chunk_index : Int)),
         ("embedding", embToJson d.embedding)]

/-- One exported code-example row. -/
def codeRowToJson (c : CodeRow) : JVal :=
  .jobj [("id", .jstr c.id), ("source_id", .jstr c.source_id),
         ("language", .jstr c.language), ("description", .jstr c.description),
         ("code", .jstr c.code), ("source_url", .jstr c.source_url)]

/-- Model of `export_to_json(path)`: the returned path paired with the JSON document
written to that path. -/
def export_to_json (db : DB) (output_path : String) : String × JVal :=
  (output_path,
   .jobj [("sources", .jarr ((list_sources db).map sourceToJson)),
          ("documents", .jarr ((get_documents db none).map documentToJson)),
          ("code_examples", .jarr ((get_code_examples db none).map codeRowToJson))])

/-! Entry point -/

/-- Outcome of running the script's `__main__` block. -/
inductive MainResult
  | dbMissing (exitCode : Nat)
  | ran (stats : Option (List (String × Nat)))
  deriving Repr, DecidableEq

/-- The `__main__` guard: a missing database file exits with code 1 before any
query; otherwise the basic example runs, whose first database access is
`get_stats`. -/
def main_entry (dbFile : Option DB) : MainResult :=
  match dbFile with
  | none => .dbMissing 1
  | some db => .ran (get_stats db)

/-! Effect model

Each `cursor.execute` call of the class is one command; the command type also
has write commands (which a connection could issue and which do change the
state), so that read-only-ness of the class is a statement, not a tautology. -/

/-- SQL commands: the queries this client issues, plus writes. -/
inductive SqlCmd
  | countTable (table : String)
  | selectSourcesOrdered
  | searchLike (query : String) (limit : Int)
  | docsBySource (sid : String)
  | docsAll
  | codeByLang (lang : String)
  | codeAll
  | embeddingsNotNull
  | insertSource (s : Source)
  | insertDocument (d : Document)
  | deleteAll (table : String)

/-- State effect of one SQL command on the database. -/
def execState : SqlCmd → DB → DB
  | .insertSource s, db => { db with sources := db.sources ++ [s] }
  | .insertDocument d, db => { db with documents := db.documents ++ [d] }
  | .deleteAll t, db =>
    if t = "sources" then { db with sources := [] }
    else if t = "documents" then { db with documents := [] }
    else if t = "code_examples" then { db with code_examples := [] }
    else if t = "collections" then { db with collections := [] }
    else db
  | _, db => db

/-- One call to a method of the reader class. -/
inductive ReaderCall
  | getStats
  | listSources
  | search (query : String) (limit : Int)
  | getDocuments (source_id : Option String)
  | getCodeExamples (language : Option String)
  | getEmbeddings
  | exportToJson (path : String)

/-- The `cursor.execute` commands each method performs, in order, read off the
source of the class. -/
def cmdsOf : ReaderCall → List SqlCmd
  | .getStats => statsTables.map .countTable
  | .listSources => [.selectSourcesOrdered]
  | .search q lim => [.searchLike q lim]
  | .getDocuments sid? =>
    match sid? with
    | some sid => if sid = "" then [.docsAll] else [.docsBySource sid]
    | none => [.docsAll]
  | .getCodeExamples l? =>
    match l? with
    | some lang => if lang = "" then [.codeAll] else [.codeByLang lang]
    | none => [.codeAll]
  | .getEmbeddings => [.embeddingsNotNull]
  | .exportToJson _ => [.selectSourcesOrdered, .docsAll, .codeAll]

/-- Run a command list against the database state. -/
def runCmds (cmds : List SqlCmd) (db : DB) : DB :=
  cmds.foldl (fun st c => execState c st) db

/-! Concrete database states used in witnesses and counterexamples -/

/-- A concrete source row. -/
def srcReact : Source := ⟨"s1", "website", "https://react.dev", "React Docs", "completed", 10⟩

/-- A document whose content contains "React" capitalised only. -/
def docReact : Document := ⟨"dR", "s1", "Use React hooks", 0, none⟩

/-- One source, one document. -/
def dbReact : DB := ⟨[srcReact], [docReact], [], []⟩

/-- A document whose source id is the empty string. -/
def docEmptySid : Document := ⟨"d1", "", "alpha", 1, none⟩

/-- A document owned by source `srcA`. -/
def docOfA : Document := ⟨"d2", "srcA", "beta", 0, none⟩

/-- A second concrete source row. -/
def srcA : Source := ⟨"srcA", "website", "https://a.example", "A", "completed", 5⟩

/-- Database exercising the falsy source-id branch of `get_documents`. -/
def dbFalsy : DB := ⟨[srcA], [docEmptySid, docOfA], [], []⟩

/-- Database with two documents of one source, stored out of chunk order. -/
def dbChunks : DB :=
  ⟨[srcA], [⟨"d3", "srcA", "gamma", 2, none⟩, ⟨"d4", "srcA", "delta", 1, none⟩], [], []⟩

/-- A document carrying the four-byte embedding of the float 1.0. -/
def docEmb : Document := ⟨"dE", "s1", "with embedding", 0, some [0, 0, 128, 63]⟩

/-- Database with one embedded document. -/
def dbEmb : DB := ⟨[srcReact], [docEmb], [], []⟩

/-- The rows `get_embeddings` returns on `dbEmb`. -/
def rowsEmb : List EmbRow :=
  [⟨"dE", "with embedding", .vec [1065353216], "https://react.dev", "React Docs"⟩]

/-! Theorems -/

/-- C6: `getStats()` returns a mapping whose key set is exactly the four table
names `sources`, `documents`, `code_examples`, `collections`, and every value
is the (non-negative) row count of its table. -/
theorem get_stats_spec (db : DB) :
    ∃ counts, get_stats db = some counts ∧
      counts.map Prod.fst = ["sources", "documents", "code_examples", "collections"] ∧
      counts.lookup "sources" = some db.sources.length ∧
      counts.lookup "documents" = some db.documents.length ∧
      counts.lookup "code_examples" = some db.code_examples.length ∧
      counts.lookup "collections" = some db.collections.length := by
  refine ⟨[("sources", db.sources.length), ("documents", db.documents.length),
    ("code_examples", db.code_examples.length), ("collections", db.collections.length)],
    ?_, rfl, rfl, rfl, rfl, rfl⟩
  rfl

/-- C7: a missing database file exits with code 1 before any query runs; a
present file passes the guard and the entry point proceeds to query the
database (its first query being `get_stats`). -/
theorem main_entry_spec :
    main_entry none = MainResult.dbMissing 1 ∧
    ∀ db : DB, main_entry (some db) = MainResult.ran (get_stats db) :=
  ⟨rfl, fun _ => rfl⟩

/-- C8: `listSources()` returns all Source records (a permutation of the
table) ordered by creation timestamp, descending. -/
theorem list_sources_spec (db : DB) :
    (list_sources db).Perm db.sources ∧ (list_sources db).Pairwise createdDesc :=
  ⟨List.perm_insertionSort createdDesc db.sources,
   List.sorted_insertionSort createdDesc db.sources⟩

/-- C10: a falsy `source_id` argument (the empty string, or absent) disables
the filter and the `chunk_index` ordering: all documents come back exactly as
stored, even when some document's `source_id` equals that falsy value. -/
theorem get_documents_falsy (db : DB) :
    get_documents db (some "") = db.documents ∧ get_documents db none = db.documents :=
  ⟨rfl, rfl⟩

/-- C9: every method of the reader issues only read commands: running any
method's command trace leaves the database state unchanged. -/
theorem reader_no_writes (c : ReaderCall) (db : DB) : runCmds (cmdsOf c) db = db := by
  cases c with
  | getStats => rfl
  | listSources => rfl
  | search q lim => rfl
  | getDocuments sid? =>
    rcases sid? with _ | sid
    · rfl
    · by_cases h : sid = "" <;> simp [cmdsOf, runCmds, execState, h]
  | getCodeExamples l? =>
    rcases l? with _ | lang
    · rfl
    · by_cases h : lang = "" <;> simp [cmdsOf, runCmds, execState, h]
  | getEmbeddings => rfl
  | exportToJson p => rfl

/-- C2: with a non-negative limit, `search` returns at most `limit` records. -/
theorem search_limit (db : DB) (query : String) (limit : Int) (h : 0 ≤ limit) :
    ((search db query limit).length : Int) ≤ limit := by
  unfold search
  rw [if_neg (by omega : ¬ limit < 0)]
  have h1 : ((searchRows db query).take limit.toNat).length ≤ limit.toNat :=
    List.length_take_le _ _
  omega

/-- Witness for C2 at a concrete database, query and limit. -/
theorem search_limit_witness :
    (0 : Int) ≤ 10 ∧ ((search dbReact "react" 10).length : Int) ≤ 10 :=
  ⟨by decide, search_limit dbReact "react" 10 (by decide)⟩

/-- C5: `exportToJson` returns the given path, and the written JSON document
has exactly the top-level keys `sources`, `documents`, `code_examples`, whose
arrays have the lengths of `listSources()`, `getDocuments()` and
`getCodeExamples()` respectively. -/
theorem export_to_json_spec (db : DB) (path : String) :
    (export_to_json db path).1 = path ∧
    ∃ srcs docs codes,
      (export_to_json db path).2 =
        JVal.jobj [("sources", JVal.jarr srcs), ("documents", JVal.jarr docs),
                   ("code_examples", JVal.jarr codes)] ∧
      srcs.length = (list_sources db).length ∧
      docs.length = (get_documents db none).length ∧
      codes.length = (get_code_examples db none).length :=
  ⟨rfl, (list_sources db).map sourceToJson, (get_documents db none).map documentToJson,
   (get_code_examples db none).map codeRowToJson, rfl,
   by simp, by simp, by simp⟩

/-- C3 as stated fails: with the falsy source id `""` the Python truthiness
test skips the filter, so a document of a different source is returned. -/
theorem get_documents_claim_ce :
    ¬ (∀ d ∈ get_documents dbFalsy (some ""), d.source_id = "") := by
  decide

/-- C3 amended: for every truthy (non-empty) source id, `getDocuments`
returns exactly the documents of that source, ordered by non-decreasing
`chunk_index`. -/
theorem get_documents_spec (db : DB) (sid : String) (h : sid ≠ "") :
    (∀ d ∈ get_documents db (some sid), d.source_id = sid) ∧
    (get_documents db (some sid)).Pairwise chunkLe ∧
    (get_documents db (some sid)).Perm (db.documents.filter (fun d => d.source_id == sid)) := by
  have hE : get_documents db (some sid)
      = (db.documents.filter (fun d => d.source_id == sid)).insertionSort chunkLe := by
    unfold get_documents
    exact if_neg h
  rw [hE]
  refine ⟨?_, ?_, ?_⟩
  · intro d hd
    rw [List.mem_insertionSort] at hd
    exact eq_of_beq (List.mem_filter.mp hd).2
  · exact List.sorted_insertionSort chunkLe _
  · exact List.perm_insertionSort chunkLe _

/-- Witness for the amended C3 at a concrete database and source id. -/
theorem get_documents_spec_witness :
    ("srcA" : String) ≠ "" ∧
    ((∀ d ∈ get_documents dbChunks (some "srcA"), d.source_id = "srcA") ∧
     (get_documents dbChunks (some "srcA")).Pairwise chunkLe ∧
     (get_documents dbChunks (some "srcA")).Perm
       (dbChunks.documents.filter (fun d => d.source_id == "srcA"))) :=
  ⟨by decide, get_documents_spec dbChunks "srcA" (by decide)⟩

/-! LIKE-matching lemmas for the search claims -/

/-- The empty pattern matches exactly the empty string. -/
theorem likeMatch_nil (s : List Char) : likeMatch [] s = s.isEmpty := rfl

/-- A leading `%` matches iff the rest of the pattern matches some suffix. -/
theorem likeMatch_percent (ps s : List Char) :
    likeMatch ('%' :: ps) s = s.tails.any (fun t => likeMatch ps t) := by
  simp [likeMatch]

/-- Some suffix of every string is empty. -/
theorem any_isEmpty_tails (s : List Char) : s.tails.any (fun t => t.isEmpty) = true := by
  rw [List.any_eq_true]
  exact ⟨[], (List.mem_tails _ _).mpr ⟨s, by simp⟩, rfl⟩

/-- A wildcard-free pattern followed by `%` matches exactly the strings whose
ASCII case folding starts with the folded pattern. -/
theorem likeMatch_append_percent (q : List Char) (hq : ∀ c ∈ q, c ≠ '%' ∧ c ≠ '_') :
    ∀ s : List Char, likeMatch (q ++ ['%']) s = prefixEq (q.map foldAscii) (s.map foldAscii) := by
  induction q with
  | nil =>
    intro s
    rw [List.nil_append, likeMatch_percent]
    simp only [likeMatch_nil]
    rw [any_isEmpty_tails]
    rfl
  | cons a q ih =>
    intro s
    have ha := hq a (List.mem_cons_self a q)
    have hq' : ∀ c ∈ q, c ≠ '%' ∧ c ≠ '_' := fun c hc => hq c (List.mem_cons_of_mem a hc)
    cases s with
    | nil =>
      simp [likeMatch, ha.1, prefixEq]
    | cons c s' =>
      simp only [List.cons_append, likeMatch, if_neg ha.1, if_neg ha.2, List.map_cons, prefixEq,
        List.append_eq]
      rw [ih hq' s']
      rfl

/-- Mapping a function over a suffix keeps it a suffix. -/
theorem suffix_map (f : Char → Char) {t s : List Char} (h : t <:+ s) :
    t.map f <:+ s.map f := by
  obtain ⟨u, rfl⟩ := h
  exact ⟨u.map f, (List.map_append f u t).symm⟩

/-- Every record `search` returns comes from a joined row that passed the
LIKE filter and supplies the record's content. -/
theorem mem_search {db : DB} {query : String} {limit : Int} {r : SearchRow}
    (hr : r ∈ search db query limit) :
    ∃ p ∈ joinDS db, likeFilter query p.1.content = true ∧ r.content = p.1.content := by
  have hr' : r ∈ searchRows db query := by
    unfold search at hr
    split at hr
    · exact hr
    · exact List.mem_of_mem_take hr
  unfold searchRows at hr'
  obtain ⟨p, hp, hpr⟩ := List.mem_map.mp hr'
  have h2 := List.mem_filter.mp hp
  exact ⟨p, h2.1, h2.2, by rw [← hpr]⟩

/-- C1 as stated fails: SQLite's `LIKE` is ASCII case-insensitive, so the
query "react" returns a document whose content only contains "React"; that
content does not contain "react" as a case-sensitive substring. -/
theorem search_claim_ce :
    ¬ (∀ r ∈ search dbReact "react" 10, containsSub r.content.data "react".data = true) := by
  decide

/-- C1 amended: for a query free of the LIKE wildcard characters `%` and `_`,
every record returned by `search` contains the query in its content as an
ASCII case-insensitive substring. -/
theorem search_substring (db : DB) (query : String) (limit : Int)
    (hq : ∀ c ∈ query.data, c ≠ '%' ∧ c ≠ '_') :
    ∀ r ∈ search db query limit,
      containsSub (r.content.data.map foldAscii) (query.data.map foldAscii) = true := by
  intro r hr
  obtain ⟨p, _, hlike, hcontent⟩ := mem_search hr
  rw [hcontent]
  unfold likeFilter at hlike
  rw [likeMatch_percent, List.any_eq_true] at hlike
  obtain ⟨t, ht, hmt⟩ := hlike
  rw [likeMatch_append_percent query.data hq t] at hmt
  unfold containsSub
  rw [List.any_eq_true]
  refine ⟨t.map foldAscii, ?_, hmt⟩
  rw [List.mem_tails]
  exact suffix_map foldAscii ((List.mem_tails _ _).mp ht)

/-- Witness for the amended C1 at a concrete database and query. -/
theorem search_substring_witness :
    (∀ c ∈ ("act" : String).data, c ≠ '%' ∧ c ≠ '_') ∧
    ∀ r ∈ search dbReact "act" 10,
      containsSub (r.content.data.map foldAscii) (("act" : String).data.map foldAscii) = true :=
  ⟨by decide, search_substring dbReact "act" 10 (by decide)⟩

/-! Embedding-decoding lemmas -/

/-- A successful `np.frombuffer` decode consumes exactly four bytes per word. -/
theorem decodeF32_length :
    ∀ (bs ws : List Nat), decodeF32 bs = some ws → bs.length = 4 * ws.length
  | [], ws, h => by
    simp only [decodeF32, Option.some.injEq] at h
    subst h
    rfl
  | [b0], ws, h => by simp [decodeF32] at h
  | [b0, b1], ws, h => by simp [decodeF32] at h
  | [b0, b1, b2], ws, h => by simp [decodeF32] at h
  | b0 :: b1 :: b2 :: b3 :: rest, ws, h => by
    simp only [decodeF32, Option.map_eq_some'] at h
    obtain ⟨ws', h1, h2⟩ := h
    have h3 := decodeF32_length rest ws' h1
    subst h2
    simp only [List.length_cons, h3]
    omega

/-- One row of `get_embeddings` keeps the document's id, and its embedding
field holds blob-length / 4 entries. -/
theorem decodeEmb_spec {d : Document} {s : Source} {r : EmbRow} {bs : List Nat}
    (hemb : d.embedding = some bs) (h : decodeEmb d s = some r) :
    r.id = d.id ∧ embLen r.embedding = bs.length / 4 := by
  unfold decodeEmb at h
  rw [hemb] at h
  cases bs with
  | nil =>
    simp only [Option.some.injEq] at h
    subst h
    exact ⟨rfl, rfl⟩
  | cons b bs' =>
    simp only [Option.map_eq_some'] at h
    obtain ⟨ws, h1, h2⟩ := h
    subst h2
    refine ⟨rfl, ?_⟩
    have h3 := decodeF32_length _ _ h1
    simp only [embLen, h3]
    omega

/-- Every row of a successful decoding loop comes from one of the joined
pairs fed into it. -/
theorem decodeRows_mem_left {l : List (Document × Source)} {rs : List EmbRow}
    (h : decodeRows l = some rs) : ∀ r ∈ rs, ∃ p ∈ l, decodeEmb p.1 p.2 = some r := by
  induction l generalizing rs with
  | nil =>
    simp only [decodeRows, Option.some.injEq] at h
    subst h
    intro r hr
    simp at hr
  | cons p rest ih =>
    intro r hr
    rw [decodeRows] at h
    cases hd : decodeEmb p.1 p.2 with
    | none => rw [hd] at h; simp at h
    | some r0 =>
      rw [hd] at h
      simp only [Option.map_eq_some'] at h
      obtain ⟨rs', h1, h2⟩ := h
      subst h2
      rcases List.mem_cons.mp hr with h3 | h3
      · exact ⟨p, List.mem_cons_self p rest, by rw [hd, h3]⟩
      · obtain ⟨p', hp', hd'⟩ := ih h1 r h3
        exact ⟨p', List.mem_cons_of_mem p hp', hd'⟩

/-- Every joined pair fed into a successful decoding loop contributes a row. -/
theorem decodeRows_mem_right {l : List (Document × Source)} {rs : List EmbRow}
    (h : decodeRows l = some rs) : ∀ p ∈ l, ∃ r ∈ rs, decodeEmb p.1 p.2 = some r := by
  induction l generalizing rs with
  | nil =>
    intro p hp
    simp at hp
  | cons p0 rest ih =>
    intro p hp
    rw [decodeRows] at h
    cases hd : decodeEmb p0.1 p0.2 with
    | none => rw [hd] at h; simp at h
    | some r0 =>
      rw [hd] at h
      simp only [Option.map_eq_some'] at h
      obtain ⟨rs', h1, h2⟩ := h
      subst h2
      rcases List.mem_cons.mp hp with h3 | h3
      · exact ⟨r0, List.mem_cons_self r0 rs', by rw [h3, hd]⟩
      · obtain ⟨r, hr, hd'⟩ := ih h1 p h3
        exact ⟨r, List.mem_cons_of_mem r0 hr, hd'⟩

/-- Membership in the document/source join. -/
theorem mem_joinDS {db : DB} {p : Document × Source} :
    p ∈ joinDS db ↔ p.1 ∈ db.documents ∧ p.2 ∈ db.sources ∧ p.2.id = p.1.source_id := by
  obtain ⟨d, s⟩ := p
  simp only [joinDS, List.mem_flatMap, List.mem_map, List.mem_filter, beq_iff_eq,
    Prod.mk.injEq]
  constructor
  · rintro ⟨d', hd', s', ⟨hs', hid⟩, rfl, rfl⟩
    exact ⟨hd', hs', hid⟩
  · rintro ⟨hd, hs, hid⟩
    exact ⟨d, hd, s, ⟨hs, hid⟩, rfl, rfl⟩

/-- C4: when every document's `source_id` resolves to a source (the schema's
referential integrity) and the call succeeds, `getEmbeddings()` returns
exactly the documents whose embedding is non-null, and every returned
embedding holds blob-byte-length / 4 decoded 32-bit values. -/
theorem get_embeddings_spec (db : DB) (rs : List EmbRow)
    (hint : ∀ d ∈ db.documents, ∃ s ∈ db.sources, s.id = d.source_id)
    (hok : get_embeddings db = some rs) :
    (∀ r ∈ rs, ∃ d ∈ db.documents, ∃ bs, d.embedding = some bs ∧
        r.id = d.id ∧ embLen r.embedding = bs.length / 4) ∧
    (∀ d ∈ db.documents, d.embedding.isSome = true → ∃ r ∈ rs, r.id = d.id) := by
  constructor
  · intro r hr
    obtain ⟨p, hp, hdec⟩ := decodeRows_mem_left hok r hr
    have hpf := List.mem_filter.mp hp
    have hj := mem_joinDS.mp hpf.1
    obtain ⟨bs, hbs⟩ := Option.isSome_iff_exists.mp hpf.2
    obtain ⟨hid, hlen⟩ := decodeEmb_spec hbs hdec
    exact ⟨p.1, hj.1, bs, hbs, hid, hlen⟩
  · intro d hd hsome
    obtain ⟨s, hs, hsid⟩ := hint d hd
    have hpf : (d, s) ∈ (joinDS db).filter (fun p => p.1.embedding.isSome) :=
      List.mem_filter.mpr ⟨mem_joinDS.mpr ⟨hd, hs, hsid⟩, hsome⟩
    obtain ⟨r, hr, hdec⟩ := decodeRows_mem_right hok (d, s) hpf
    obtain ⟨bs, hbs⟩ := Option.isSome_iff_exists.mp hsome
    exact ⟨r, hr, (decodeEmb_spec hbs hdec).1⟩

/-- Witness for C4 at a concrete database with one embedded document. -/
theorem get_embeddings_spec_witness :
    (∀ d ∈ dbEmb.documents, ∃ s ∈ dbEmb.sources, s.id = d.source_id) ∧
    get_embeddings dbEmb = some rowsEmb ∧
    ((∀ r ∈ rowsEmb, ∃ d ∈ dbEmb.documents, ∃ bs, d.embedding = some bs ∧
        r.id = d.id ∧ embLen r.embedding = bs.length / 4) ∧
     (∀ d ∈ dbEmb.documents, d.embedding.isSome = true → ∃ r ∈ rowsEmb, r.id = d.id)) :=
  ⟨by decide, by decide, get_embeddings_spec dbEmb rowsEmb (by decide) (by decide)⟩

end DevDigger
